import Mathlib

/-!
Verification of the incremental-load / SCD subsystem of the retail ETL
repository.  The Python sources are shallowly embedded as executable Lean
definitions:

* cell values of a pandas DataFrame become `Val` (integer, string or null);
  timestamps are modelled as integers and `.dt.date` as integer division by
  86400 (a monotone day-number projection);
* a DataFrame row becomes an association list from column names to values,
  and a DataFrame carries its column list, the set of numeric-dtype columns
  and its rows;
* the database side effects of a load (watermark row, dimension table,
  fact table) become explicit state threaded through the functions;
* fallible database steps are modelled by injected step outcomes, an
  exception becoming an `Except.error` result.
-/

deriving instance DecidableEq for Except

/-- Cell value of a source row: integer (also used for timestamps and
dates), string, or null (pandas NaN / SQL NULL). -/
inductive Val where
  | int (n : ℤ)
  | str (s : String)
  | null
  deriving DecidableEq, Repr

/-- A source/table row: association list from column name to value
(mirrors a pandas row viewed as a dict, and a SQL row). -/
abbrev Row := List (String × Val)

/-- Cell access `row[col]` (first binding wins); an absent column reads
as null (pandas NaN). -/
def getVal : Row → String → Val
  | [], _ => Val.null
  | p :: tl, c => if p.1 = c then p.2 else getVal tl c

/-- Whether a row has a binding for a column. -/
def hasCol (t : Row) (c : String) : Bool :=
  (t.map Prod.fst).contains c

/-- Model of `UPDATE ... SET c = v` on one row: replaces the value of an existing
column `c`; a column the row does not have is left untouched. -/
def setVal (r : Row) (c : String) (v : Val) : Row :=
  r.map (fun p => if p.1 = c then (c, v) else p)

/-- Whether a value is null (`pandas.isnull`). -/
def Val.isNull : Val → Bool
  | Val.null => true
  | _ => false

/-- Whether a value is a negative number (`df[col] < 0`; null compares
false, as NaN does in pandas). -/
def Val.isNeg : Val → Bool
  | Val.int n => n < 0
  | _ => false

/-- Predicate `startsWithChars p l` : the character list `p` is an initial segment
of `l`. -/
def startsWithChars : List Char → List Char → Bool
  | [], _ => true
  | _ :: _, [] => false
  | a :: as, b :: bs => a = b && startsWithChars as bs

/-- Predicate `hasSubChars p l` : the character list `p` occurs contiguously in `l`. -/
def hasSubChars (p : List Char) : List Char → Bool
  | [] => startsWithChars p []
  | l@(_ :: rest) => startsWithChars p l || hasSubChars p rest

/-- Python's `pat in s.lower()`: case-insensitive substring test
(`s.lower()` taken characterwise so the test stays kernel-computable). -/
def lowerHas (s pat : String) : Bool :=
  hasSubChars pat.toList (s.toList.map Char.toLower)

/-- A pandas DataFrame: column names, the subset of columns with numeric
dtype (`select_dtypes(include=['number'])`), and the rows. -/
structure DataFrame where
  cols : List String
  numCols : List String
  rows : List Row
  deriving DecidableEq, Repr

/-- Model of `IncrementalLoader._get_critical_columns`: static mapping from table
name to its non-nullable critical columns; unknown tables get `[]`. -/
def criticalColumns (table : String) : List String :=
  if table = ("fact_sales") then
    [("time_key"), ("customer_key"), ("product_key"), ("store_key"), ("quantity"), ("unit_price")]
  else if table = ("dim_product") then [("product_key"), ("product_name")]
  else if table = ("dim_customer") then [("customer_key"), ("customer_name")]
  else if table = ("dim_store") then [("store_key"), ("store_name")]
  else []

/-- Whether a numeric column name denotes an amount/quantity/price
(`'amount' in col.lower() or 'quantity' in col.lower() or 'price' in
col.lower()`). -/
def amountLike (c : String) : Bool :=
  lowerHas c ("amount") || lowerHas c ("quantity") || lowerHas c ("price")

/-- Per-row value of the validity mask built by
`IncrementalLoader._validate_records`: the row keeps `valid_mask = True`
iff no critical column present in the frame is null and no numeric
amount/quantity/price column is negative. -/
def validRow (df : DataFrame) (table : String) (r : Row) : Bool :=
  ((criticalColumns table).all fun c =>
      if df.cols.contains c then !(getVal r c).isNull else true)
  && (df.numCols.all fun c =>
      if amountLike c then !(getVal r c).isNeg else true)

/-- Model of `IncrementalLoader._validate_records`: partitions the rows by the
validity mask into `(valid_df, rejected_df)`. -/
def validateRecords (df : DataFrame) (table : String) : List Row × List Row :=
  (df.rows.filter (validRow df table), df.rows.filter (fun r => !validRow df table r))

/-- One `etl_watermark` row for a fixed (table_name, source_system) pair:
`last_loaded_timestamp`, `last_loaded_date`, `last_invoice_number`
(all nullable) and the cumulative processed/rejected counters
(`updated_at` carries no load semantics and is omitted). -/
structure Watermark where
  ts : Option ℤ
  dt : Option ℤ
  inv : Option ℤ
  proc : ℕ
  rej : ℕ
  deriving DecidableEq, Repr

/-- SQL `COALESCE(new, old)`. -/
def coalesce (a b : Option ℤ) : Option ℤ :=
  match a with
  | some x => some x
  | none => b

/-- Model of `WatermarkManager.update_watermark` restricted to one (table, source)
pair: a SQL `UPDATE` that COALESCE-merges the nullable fields and adds the
count deltas.  There is no `INSERT` branch in the source, so when no
watermark row exists the `UPDATE` matches nothing and the store is
unchanged (`none` stays `none`). -/
def updateWatermark (store : Option Watermark) (newTs newDt newInv : Option ℤ)
    (proc rej : ℕ) : Option Watermark :=
  match store with
  | none => none
  | some w =>
      some { ts := coalesce newTs w.ts, dt := coalesce newDt w.dt,
             inv := coalesce newInv w.inv,
             proc := w.proc + proc, rej := w.rej + rej }

/-- Day-number projection used for `.dt.date` / `.date()`: timestamps are
seconds, dates are days. -/
def dateOf (t : ℤ) : ℤ := t / 86400

/-- Read the timestamp column of a row as an integer timestamp
(a non-timestamp or null cell yields `none`, as NaT does). -/
def getTs (tsCol : String) (r : Row) : Option ℤ :=
  match getVal r tsCol with
  | Val.int n => some n
  | _ => none

/-- Row comparison for `sort_values(timestamp_column)`; rows without a
timestamp sort last (pandas `na_position='last'`). -/
def tsLe (tsCol : String) (a b : Row) : Bool :=
  match getTs tsCol a, getTs tsCol b with
  | some x, some y => x ≤ y
  | some _, none => true
  | none, some _ => false
  | none, none => true

/-- Insert a row into a sorted list (auxiliary for the sort model). -/
def insertByTs (le : Row → Row → Bool) (r : Row) : List Row → List Row
  | [] => [r]
  | x :: xs => if le x r then x :: insertByTs le r xs else r :: x :: xs

/-- Model of `new_records.sort_values(timestamp_column)`: a sort producing
some ascending permutation of the rows (the loads only depend on the
multiset of rows, not on the tie-breaking order). -/
def sortRows (le : Row → Row → Bool) : List Row → List Row
  | [] => []
  | x :: xs => insertByTs le x (sortRows le xs)

/-- One step of the running maximum over the timestamp column. -/
def maxTsStep (tsCol : String) (acc : Option ℤ) (r : Row) : Option ℤ :=
  match acc, getTs tsCol r with
  | none, v => v
  | some m, none => some m
  | some m, some v => some (max m v)

/-- Model of `source_df[timestamp_column].max()`: maximum timestamp over the whole
source frame, skipping rows without one (`NaN`/`NaT`); `none` when no row
has a timestamp. -/
def maxTs (df : DataFrame) (tsCol : String) : Option ℤ :=
  df.rows.foldl (maxTsStep tsCol) none

/-- Model of `df[timestamp_column] > last_timestamp` for one row (a row without a
timestamp compares false, as NaT does). -/
def afterTs (t : ℤ) (tsCol : String) (r : Row) : Bool :=
  match getTs tsCol r with
  | some v => decide (t < v)
  | none => false

/-- Model of `df[timestamp_column].dt.date > last_date` for one row. -/
def afterDate (d : ℤ) (tsCol : String) (r : Row) : Bool :=
  match getTs tsCol r with
  | some v => decide (d < dateOf v)
  | none => false

/-- Filtering step of `IncrementalLoader.load_fact_sales_incremental`
(lines 49-66): strict timestamp filter when a timestamp watermark exists,
date fallback when only a date exists, everything on first run. -/
def newRecordsFact (w : Option Watermark) (df : DataFrame) (tsCol : String) : List Row :=
  match w with
  | some wm =>
      match wm.ts with
      | some t => df.rows.filter (afterTs t tsCol)
      | none =>
          match wm.dt with
          | some d => df.rows.filter (afterDate d tsCol)
          | none => df.rows
  | none => df.rows

/-- Filtering step of `IncrementalLoader.load_dimension_incremental`
(lines 149-157): only the timestamp watermark is consulted; any other
state (including a date-only watermark) is treated as a first run. -/
def newRecordsDim (w : Option Watermark) (df : DataFrame) (tsCol : String) : List Row :=
  match w with
  | some wm =>
      match wm.ts with
      | some t => df.rows.filter (afterTs t tsCol)
      | none => df.rows
  | none => df.rows

/-- Result dict of a fact-mode load. -/
structure LoadResult where
  inserted : ℕ
  rejected : ℕ
  total : ℕ
  deriving DecidableEq, Repr

/-- Injected outcome of each fallible database step of a fact load
(an exception in the step makes the whole call raise). -/
structure StepOutcomes where
  validateOk : Bool
  appendOk : Bool
  watermarkOk : Bool
  deriving DecidableEq, Repr

/-- All database steps succeed. -/
def okEnv : StepOutcomes := ⟨true, true, true⟩

/-- Model of `IncrementalLoader.load_fact_sales_incremental` over the watermark
store of the ('fact_sales', source_system) pair.  Returns the propagated
result (`Except.error` = the exception re-raised by the bare `raise`) and
the post-call watermark store.  The quarantine write of rejected rows is
best-effort in the source (its exceptions are caught and only logged), so
it has no failure injection.  A failed watermark `UPDATE` runs inside
`engine.begin` and rolls back, leaving the store unchanged. -/
def loadFactSalesE (env : StepOutcomes) (store : Option Watermark)
    (df : DataFrame) (tsCol : String) : Except String LoadResult × Option Watermark :=
  let nr := newRecordsFact store df tsCol
  if nr.length = 0 then (Except.ok ⟨0, 0, 0⟩, store)
  else
    let sorted := sortRows (tsLe tsCol) nr
    if !env.validateOk then (Except.error ("validation"), store)
    else
      let vr := validateRecords ⟨df.cols, df.numCols, sorted⟩ ("fact_sales")
      let ins := vr.1.length
      let rejN := vr.2.length
      if 0 < ins && !env.appendOk then (Except.error ("append"), store)
      else if !env.watermarkOk then (Except.error ("watermark"), store)
      else
        let mts := maxTs df tsCol
        (Except.ok ⟨ins, rejN, nr.length⟩,
         updateWatermark store mts (mts.map dateOf) none ins rejN)

/-- Whether a stored row matches the incoming row on the unique key
(`WHERE unique_key = :unique_key`). -/
def keyMatches (key : String) (r t : Row) : Bool :=
  getVal t key = getVal r key

/-- The `UPDATE` branch of `IncrementalLoader._upsert_dimension`: set
every incoming column except the unique key on the stored row, in the
incoming row's column order. -/
def overwriteRow (t r : Row) (key : String) : Row :=
  (r.filter fun p => p.1 ≠ key).foldl (fun acc p => setVal acc p.1 p.2) t

/-- One iteration of the `_upsert_dimension` loop: if any stored row has
the incoming row's key (`SELECT COUNT(*) ... > 0`), update all such rows
in place and count an update; otherwise append the row and count an
insert.  State: (table, inserted_count, updated_count). -/
def upsertStep (key : String) (acc : List Row × ℕ × ℕ) (r : Row) : List Row × ℕ × ℕ :=
  if 0 < acc.1.countP (keyMatches key r) then
    (acc.1.map (fun t => if keyMatches key r t then overwriteRow t r key else t),
     acc.2.1, acc.2.2 + 1)
  else (acc.1 ++ [r], acc.2.1 + 1, acc.2.2)

/-- Model of `IncrementalLoader._upsert_dimension`: row-by-row upsert of the batch
into the dimension table, each row seeing the effects of the previous
ones (single connection, committed at the end). -/
def upsertDimension (tbl : List Row) (rows : List Row) (key : String) : List Row × ℕ × ℕ :=
  rows.foldl (upsertStep key) (tbl, 0, 0)

/-- Result dict of a dimension-mode load. -/
structure DimLoadResult where
  inserted : ℕ
  updated : ℕ
  rejected : ℕ
  deriving DecidableEq, Repr

/-- Model of `IncrementalLoader.load_dimension_incremental` over the watermark
store of the (table, source_system) pair and the dimension table state.
Raises `ValueError` when the timestamp column is absent from the source. -/
def loadDimension (store : Option Watermark) (df : DataFrame)
    (table tsCol key : String) (tbl : List Row) :
    Except String (DimLoadResult × Option Watermark × List Row) :=
  if !(df.cols.contains tsCol) then Except.error ("Column not found")
  else
    let nr := newRecordsDim store df tsCol
    if nr.length = 0 then Except.ok (⟨0, 0, 0⟩, store, tbl)
    else
      let sorted := sortRows (tsLe tsCol) nr
      let vr := validateRecords ⟨df.cols, df.numCols, sorted⟩ table
      let u := upsertDimension tbl vr.1 key
      let rejN := vr.2.length
      let mts := maxTs df tsCol
      Except.ok (⟨u.2.1, u.2.2, rejN⟩,
        updateWatermark store mts (mts.map dateOf) none (u.2.1 + u.2.2) rejN, u.1)

/-- A `dim_customer` row (SCD-2).  The payload columns that never
influence control flow (phone, postal_code, age_group, loyalty_tier,
registration_date, last_updated_source) are carried unchanged by the
source and omitted here. -/
structure CustRow where
  customerKey : ℕ
  customerId : ℤ
  customerName : Option String
  city : Option String
  state : Option String
  email : Option String
  segment : Option String
  effectiveDate : ℤ
  expiryDate : ℤ
  isCurrent : Bool
  sourceSystem : Option String
  deriving DecidableEq, Repr

/-- An incoming merged customer record handed to the SCD loop of
`load_customer_multisource_incremental`. -/
structure CustIncoming where
  customerId : ℤ
  customerName : Option String
  city : Option String
  state : Option String
  email : Option String
  segment : Option String
  sourceSystem : Option String
  deriving DecidableEq, Repr

/-- Day number of the sentinel expiry date '9999-12-31'
(`date(9999, 12, 31).toordinal()`). -/
def sentinelDate : ℤ := 3652059

/-- The current-row predicate `customer_id = :cid AND is_current = TRUE`. -/
def curFor (cid : ℤ) (r : CustRow) : Bool :=
  decide (r.customerId = cid) && r.isCurrent

/-- Model of `SELECT ... FROM dim_customer WHERE customer_id = :cid AND is_current
= TRUE` with `fetchone()`. -/
def findCurrent (tbl : List CustRow) (cid : ℤ) : Option CustRow :=
  tbl.find? (curFor cid)

/-- The fresh current row inserted by the SCD loop: incoming attribute
values, `effective_date = today`, `expiry_date = '9999-12-31'`,
`is_current = TRUE`; the surrogate key is the table's next auto-increment
value. -/
def mkCustRow (key : ℕ) (r : CustIncoming) (today : ℤ) : CustRow :=
  { customerKey := key, customerId := r.customerId,
    customerName := r.customerName, city := r.city, state := r.state,
    email := r.email, segment := r.segment,
    effectiveDate := today, expiryDate := sentinelDate, isCurrent := true,
    sourceSystem := r.sourceSystem }

/-- Model of `UPDATE dim_customer SET expiry_date = :exp, is_current = FALSE WHERE
customer_key = :ck` applied to one row. -/
def expireRow (today : ℤ) (t : CustRow) : CustRow :=
  { t with expiryDate := today, isCurrent := false }

/-- The change test of the SCD loop: any of the tracked attributes
(state, email, customer_segment) differs from the current row. -/
def scdChanged (cur : CustRow) (r : CustIncoming) : Bool :=
  decide (cur.state ≠ r.state) || decide (cur.email ≠ r.email)
    || decide (cur.segment ≠ r.segment)

/-- SCD state: the `dim_customer` table and its next auto-increment
surrogate key. -/
structure ScdState where
  table : List CustRow
  nextKey : ℕ
  deriving DecidableEq, Repr

/-- Counters of the SCD loop: rows_inserted, rows_updated, rows_skipped. -/
structure ScdCounts where
  inserted : ℕ
  updated : ℕ
  skipped : ℕ
  deriving DecidableEq, Repr

/-- One iteration of the SCD Type-2 loop of
`load_customer_multisource_incremental` (lines 122-205): look up the
current row for the natural key; insert a fresh current row when none
exists; on a tracked-attribute change expire the current row and insert a
fresh current row; otherwise skip. -/
def scdStep (today : ℤ) (st : ScdState × ScdCounts) (r : CustIncoming) :
    ScdState × ScdCounts :=
  match findCurrent st.1.table r.customerId with
  | none =>
      (⟨st.1.table ++ [mkCustRow st.1.nextKey r today], st.1.nextKey + 1⟩,
       { st.2 with inserted := st.2.inserted + 1 })
  | some cur =>
      if scdChanged cur r then
        (⟨(st.1.table.map fun t =>
             if t.customerKey = cur.customerKey then expireRow today t else t)
             ++ [mkCustRow st.1.nextKey r today],
           st.1.nextKey + 1⟩,
         { st.2 with updated := st.2.updated + 1 })
      else (st.1, { st.2 with skipped := st.2.skipped + 1 })

/-- The whole SCD loop over a batch of merged customer rows, in batch
order. -/
def scdLoad (today : ℤ) (st : ScdState) (rows : List CustIncoming) :
    ScdState × ScdCounts :=
  rows.foldl (scdStep today) (st, ⟨0, 0, 0⟩)

/-- First-match association lookup (Python dict access for the
natural-key → surrogate-key maps). -/
def assocLookup {κ : Type} [DecidableEq κ] (l : List (κ × ℕ)) (k : κ) : Option ℕ :=
  match l.find? (fun p => p.1 = k) with
  | some p => some p.2
  | none => none

/-- A cleaned source sales row of `load_fact_sales_incremental` (the
script): StockCode, CustomerID, Country, InvoiceNo, InvoiceDate,
Quantity, UnitPrice. -/
structure SaleRow where
  stockCode : String
  customerId : ℤ
  country : String
  invoiceNo : ℤ
  invoiceDate : ℤ
  quantity : ℤ
  unitPrice : ℚ
  deriving DecidableEq, Repr

/-- A `fact_sales` row built by the script. -/
structure FactRow where
  customerKey : ℕ
  productKey : ℕ
  storeKey : ℕ
  timeKey : ℤ
  quantitySold : ℤ
  salesAmount : ℚ
  discountAmount : ℚ
  deriving DecidableEq, Repr

/-- Model of `SELECT customer_id, customer_key FROM dim_customer WHERE is_current
= TRUE` loaded into a dict: the customer lookup map is built from current
rows only, once per load. -/
def buildCustomerMap (dim : List CustRow) : List (ℤ × ℕ) :=
  (dim.filter fun r => r.isCurrent).map fun r => (r.customerId, r.customerKey)

/-- One iteration of the fact-row loop (lines 56-72): `continue` (drop the
row, `none`) unless all three natural keys resolve in the lookup maps;
otherwise build the fact row from the resolved surrogate keys.  The
`time_key` (`strftime('%Y%m%d')`) is an injective recoding of the date,
modelled by the day number. -/
def resolveFactRow (pm : List (String × ℕ)) (cm : List (ℤ × ℕ))
    (sm : List (String × ℕ)) (r : SaleRow) : Option FactRow :=
  match assocLookup pm r.stockCode, assocLookup cm r.customerId,
        assocLookup sm r.country with
  | some pk, some ck, some sk =>
      some ⟨ck, pk, sk, dateOf r.invoiceDate, r.quantity,
            (r.quantity : ℚ) * r.unitPrice, 0⟩
  | _, _, _ => none

/-- The `fact_rows` list accumulated by the loop. -/
def buildFactRows (pm : List (String × ℕ)) (cm : List (ℤ × ℕ))
    (sm : List (String × ℕ)) (rows : List SaleRow) : List FactRow :=
  rows.filterMap (resolveFactRow pm cm sm)

/-- Day number of 1901-01-01: the `last_date.year > 1900` placeholder
guard on the stored watermark date. -/
def minRealDate : ℤ := 693961

/-- Model of `df['InvoiceDate'].max().date()` over the filtered frame (equals the
maximum of the row dates since `dateOf` is monotone). -/
def maxDate (rows : List SaleRow) : Option ℤ :=
  rows.foldl
    (fun acc r =>
      match acc with
      | none => some (dateOf r.invoiceDate)
      | some m => some (max m (dateOf r.invoiceDate))) none

/-- Model of `df['InvoiceNo'].max()` over the filtered frame. -/
def maxInvoice (rows : List SaleRow) : Option ℤ :=
  rows.foldl
    (fun acc r =>
      match acc with
      | none => some r.invoiceNo
      | some m => some (max m r.invoiceNo)) none

/-- Everything the script `load_fact_sales_incremental` writes: the rows
appended to `fact_sales`, the rows written to the `etl_rejected_records`
quarantine, and the post-run watermark of ('fact_sales', 'RETAIL_OLTP'). -/
structure FactScriptEffects where
  appendedFacts : List FactRow
  rejectedWrites : List SaleRow
  watermark : Option Watermark
  deriving DecidableEq, Repr

/-- The script's own incremental filter: `if last_date and
last_date.year > 1900: df = df[df['InvoiceDate'].dt.date > last_date]`. -/
def scriptFilter (store : Option Watermark) (rows : List SaleRow) : List SaleRow :=
  match store with
  | some w =>
      match w.dt with
      | some d =>
          if minRealDate ≤ d then
            rows.filter fun r => decide (d < dateOf r.invoiceDate)
          else rows
      | none => rows
  | none => rows

/-- The script `load_fact_sales_incremental` (lines 15-89) after the
source frame has been cleaned: date-filter by the stored watermark date,
build the lookup maps, build fact rows (dropping unresolvable rows by
`continue`), append them and advance the watermark.  The script contains
no write to the quarantine table and emits no reason for a dropped row,
so `rejectedWrites` is always empty. -/
def loadFactSalesScript (store : Option Watermark) (pm : List (String × ℕ))
    (dimCustomer : List CustRow) (sm : List (String × ℕ))
    (rows : List SaleRow) : FactScriptEffects :=
  let rows' := scriptFilter store rows
  if rows'.length = 0 then ⟨[], [], store⟩
  else
    let cm := buildCustomerMap dimCustomer
    let facts := buildFactRows pm cm sm rows'
    if facts.length = 0 then ⟨[], [], store⟩
    else
      ⟨facts, [],
       updateWatermark store none (maxDate rows') (maxInvoice rows') facts.length 0⟩

/-- Status bands of a data-quality check. -/
inductive DqStatus where
  | pass
  | warning
  | fail
  deriving DecidableEq, Repr

/-- The result dict of `detect_numerical_anomalies` (the reported
percentage is rounded to two decimals for display in the source; the
status is computed from the unrounded value, kept exact here). -/
structure AnomalyResult where
  totalRecords : ℕ
  anomalyCount : ℕ
  anomalyPct : ℚ
  status : DqStatus
  deriving DecidableEq, Repr

/-- Outcome of `detect_numerical_anomalies`: a SKIP with its reason, or a
result record. -/
inductive DetectOutcome where
  | skip (reason : String)
  | result (r : AnomalyResult)
  deriving DecidableEq, Repr

/-- Sum of a list of rationals. -/
def listSum (l : List ℚ) : ℚ := l.foldl (· + ·) 0

/-- Model of `np.mean(values)`. -/
def meanOf (l : List ℚ) : ℚ := listSum l / l.length

/-- Model of `np.std(values) ** 2`: the population variance (`np.std` uses
`ddof = 0`); `std == 0` iff this is `0`. -/
def popVar (l : List ℚ) : ℚ :=
  listSum (l.map fun x => (x - meanOf l) ^ 2) / l.length

/-- The anomaly flag `abs((x - mean) / std) > z_threshold` of the source,
in rational arithmetic: for `var > 0` and `t ≥ 0` squaring both sides of
`|x - mean| > t * sqrt var` gives `(x - mean)^2 > t^2 * var`, and for
`t < 0` the comparison always holds. -/
def zFlag (mean var t x : ℚ) : Bool :=
  if t < 0 then true else decide ((x - mean) ^ 2 > t ^ 2 * var)

/-- Model of `AdvancedDataQuality.detect_numerical_anomalies` on the non-null
column values: skip on no data or zero variance, otherwise count the
z-flagged values and band the flagged percentage into
PASS (< 1%) / WARNING (< 5%) / FAIL (≥ 5%). -/
def detectNumericalAnomalies (values : List ℚ) (zThreshold : ℚ) : DetectOutcome :=
  if values.length = 0 then DetectOutcome.skip ("No data")
  else
    let m := meanOf values
    let v := popVar values
    if v = 0 then DetectOutcome.skip ("No variation in data")
    else
      let cnt := values.countP (zFlag m v zThreshold)
      let pct := ((cnt : ℚ) / (values.length : ℚ)) * 100
      DetectOutcome.result ⟨values.length, cnt, pct,
        if pct < 1 then DqStatus.pass
        else if pct < 5 then DqStatus.warning
        else DqStatus.fail⟩

/-! ### Concrete fixtures used by the counterexamples and witnesses -/

/-- A watermark row carrying only a date (as the standalone scripts
create via `update_watermark(..., new_date=...)`): day number 5, no
timestamp. -/
def wmDateOnly : Watermark := ⟨none, some 5, none, 0, 0⟩

/-- A one-row dimension source whose only row carries timestamp 259200
(day number 3, i.e. on or before the stored watermark date 5). -/
def dfDim : DataFrame :=
  ⟨[("event_time")], [], [[("event_time", Val.int 259200)]]⟩

/-- A stored dimension row for natural key 1 with state CA. -/
def dimTblCex : List Row :=
  [[("customer_id", Val.int 1), ("state", Val.str ("CA"))]]

/-- An incoming batch row for natural key 1 with changed state NY. -/
def dimBatchCex : List Row :=
  [[("customer_id", Val.int 1), ("state", Val.str ("NY"))]]

/-- A one-row valid `fact_sales` source frame whose timestamp column is
`transaction_date` (value 1000, day number 0). -/
def factDf : DataFrame :=
  ⟨[("time_key"), ("customer_key"), ("product_key"), ("store_key"),
    ("quantity"), ("unit_price"), ("transaction_date")],
   [("quantity"), ("unit_price")],
   [[("time_key", Val.int 20260101), ("customer_key", Val.int 1),
     ("product_key", Val.int 2), ("store_key", Val.int 3),
     ("quantity", Val.int 5), ("unit_price", Val.int 10),
     ("transaction_date", Val.int 1000)]]⟩

/-- A pre-created but blank watermark row: all nullable fields null,
counters zero. -/
def blankWatermark : Watermark := ⟨none, none, none, 0, 0⟩

/-! ### C10 -/

/-- C10 counterexample: on the column [10, 10, 10, 10, 1000] with
z_threshold = 3 the code flags nothing — the mean is 208 and the
population standard deviation 396, so the z-score of 1000 is exactly 2.0,
below the threshold — yielding anomaly_count = 0, anomaly_percentage = 0%
and status PASS, not the claimed count 1 / 20% / FAIL. -/
theorem c10_counterexample :
    detectNumericalAnomalies [10, 10, 10, 10, 1000] 3
      = DetectOutcome.result ⟨5, 0, 0, DqStatus.pass⟩ ∧
    detectNumericalAnomalies [10, 10, 10, 10, 1000] 3
      ≠ DetectOutcome.result ⟨5, 1, 20, DqStatus.fail⟩ := by
  have hm : meanOf [10, 10, 10, 10, 1000] = 208 := by
    unfold meanOf listSum; norm_num
  have hv : popVar [10, 10, 10, 10, 1000] = 156816 := by
    unfold popVar listSum; rw [hm]; norm_num
  have h : detectNumericalAnomalies [10, 10, 10, 10, 1000] 3
      = DetectOutcome.result ⟨5, 0, 0, DqStatus.pass⟩ := by
    unfold detectNumericalAnomalies
    rw [hm, hv]
    norm_num [zFlag, List.countP_cons, List.countP_nil]
  exact ⟨h, by rw [h]; simp⟩

/-- C10 amended: on [10, 10, 10, 10, 1000] with z_threshold = 3 the
anomaly check flags no value (the z-score of 1000 is 2.0 < 3; with five
values no population z-score can exceed 2), reporting anomaly_count = 0,
anomaly_percentage = 0% and status PASS; a column with zero variance is
skipped, not failed. -/
theorem c10_anomaly_check :
    detectNumericalAnomalies [10, 10, 10, 10, 1000] 3
      = DetectOutcome.result ⟨5, 0, 0, DqStatus.pass⟩ ∧
    detectNumericalAnomalies [7, 7, 7] 3
      = DetectOutcome.skip ("No variation in data") ∧
    detectNumericalAnomalies [10, 10, 10, 10, 1000] (3/2)
      = DetectOutcome.result ⟨5, 1, 20, DqStatus.fail⟩ := by
  have hm : meanOf [10, 10, 10, 10, 1000] = 208 := by
    unfold meanOf listSum; norm_num
  have hv : popVar [10, 10, 10, 10, 1000] = 156816 := by
    unfold popVar listSum; rw [hm]; norm_num
  have hm7 : meanOf [7, 7, 7] = 7 := by
    unfold meanOf listSum; norm_num
  have hv7 : popVar [7, 7, 7] = 0 := by
    unfold popVar listSum; rw [hm7]; norm_num
  refine ⟨?_, ?_, ?_⟩
  · unfold detectNumericalAnomalies
    rw [hm, hv]
    norm_num [zFlag, List.countP_cons, List.countP_nil]
  · unfold detectNumericalAnomalies
    rw [hv7]
    norm_num
  · unfold detectNumericalAnomalies
    rw [hm, hv]
    norm_num [zFlag, List.countP_cons, List.countP_nil]

/-! ### C2 -/

/-- C2 counterexample: upserting a changed row (state NY) for natural key
1 over a stored row (state CA) through
`IncrementalLoader._upsert_dimension` overwrites the stored row in place:
the table still holds exactly one row for the key, now carrying NY, the
CA version is gone, and no new row was inserted (counts: 0 inserted,
1 updated) — the claimed close-the-old-row-and-insert-a-new-row behaviour
would have left two rows. -/
theorem c2_counterexample :
    upsertDimension dimTblCex dimBatchCex ("customer_id")
      = ([[("customer_id", Val.int 1), ("state", Val.str ("NY"))]], 0, 1) ∧
    (upsertDimension dimTblCex dimBatchCex ("customer_id")).1.length = 1 ∧
    ¬ 2 ≤ (upsertDimension dimTblCex dimBatchCex ("customer_id")).1.length := by
  decide

/-- Setting a column leaves every other column's value unchanged. -/
theorem getVal_setVal_ne (c c' : String) (v : Val) (h : c' ≠ c) (t : Row) :
    getVal (setVal t c v) c' = getVal t c' := by
  induction t with
  | nil => rfl
  | cons p tl ih =>
    by_cases hp : p.1 = c
    · simp only [setVal, List.map_cons, if_pos hp, getVal] at *
      rw [if_neg (fun hh => h hh.symm), if_neg (fun hh => h (hp ▸ hh).symm)]
      exact ih
    · simp only [setVal, List.map_cons, if_neg hp, getVal] at *
      by_cases hc : p.1 = c'
      · rw [if_pos hc, if_pos hc]
      · rw [if_neg hc, if_neg hc]; exact ih

/-- Setting a column that the row has makes its value the new one. -/
theorem getVal_setVal_self (c : String) (v : Val) :
    ∀ t : Row, hasCol t c = true → getVal (setVal t c v) c = v := by
  intro t
  induction t with
  | nil => intro h; simp [hasCol] at h
  | cons p tl ih =>
    intro h
    by_cases hp : p.1 = c
    · simp [setVal, getVal, hp]
    · have h' : hasCol tl c = true := by
        simp only [hasCol, List.map_cons, List.contains_cons, Bool.or_eq_true,
          beq_iff_eq] at h
        rcases h with h1 | h1
        · exact absurd (show p.1 = c by simp [h1]) hp
        · simpa [hasCol] using h1
      simp only [setVal, List.map_cons, if_neg hp, getVal, if_neg hp]
      exact ih h'

/-- Setting a column does not change which columns a row has. -/
theorem hasCol_setVal (c c' : String) (v : Val) (t : Row) :
    hasCol (setVal t c v) c' = hasCol t c' := by
  have hkeys : (setVal t c v).map Prod.fst = t.map Prod.fst := by
    unfold setVal
    rw [List.map_map]
    refine List.map_congr_left fun p _ => ?_
    by_cases hp : p.1 = c
    · simp [hp]
    · simp [hp]
  simp [hasCol, hkeys]

/-- Folding `setVal` over bindings none of which name `c` leaves the
value of `c` unchanged. -/
theorem getVal_foldl_setVal_notmem :
    ∀ (es : List (String × Val)) (t : Row) (c : String),
      (∀ q ∈ es, q.1 ≠ c) →
      getVal (es.foldl (fun acc p => setVal acc p.1 p.2) t) c = getVal t c := by
  intro es
  induction es with
  | nil => intro t c _; rfl
  | cons e tl ih =>
    intro t c h
    rw [List.foldl_cons, ih (setVal t e.1 e.2) c (fun q hq => h q (List.mem_cons_of_mem e hq)),
        getVal_setVal_ne _ _ _ (fun hh => h e (List.mem_cons_self e tl) hh.symm)]

/-- Folding `setVal` over bindings with distinct names sets a named
column the row has to its bound value. -/
theorem getVal_foldl_setVal_mem :
    ∀ (es : List (String × Val)) (t : Row) (c : String) (v : Val),
      (es.map Prod.fst).Nodup → (c, v) ∈ es → hasCol t c = true →
      getVal (es.foldl (fun acc p => setVal acc p.1 p.2) t) c = v := by
  intro es
  induction es with
  | nil => intro t c v _ hm; cases hm
  | cons e tl ih =>
    intro t c v hnd hm hcol
    rw [List.map_cons, List.nodup_cons] at hnd
    obtain ⟨hnd1, hnd2⟩ := hnd
    rw [List.foldl_cons]
    rcases List.mem_cons.mp hm with he | htl
    · have hc : e.1 = c := by rw [← he]
      have hnot : ∀ q ∈ tl, q.1 ≠ c := by
        intro q hq hqc
        exact hnd1 (hc ▸ hqc ▸ List.mem_map_of_mem Prod.fst hq)
      rw [getVal_foldl_setVal_notmem tl _ c hnot]
      have : setVal t e.1 e.2 = setVal t c v := by rw [← he]
      rw [this, getVal_setVal_self c v t hcol]
    · exact ih (setVal t e.1 e.2) c v hnd2 htl (by rw [hasCol_setVal]; exact hcol)

/-- The `UPDATE` of `_upsert_dimension` writes every non-key incoming
column the stored row has to the incoming value. -/
theorem getVal_overwriteRow_mem (t r : Row) (key c : String) (v : Val)
    (hnd : (r.map Prod.fst).Nodup) (hmem : (c, v) ∈ r) (hne : c ≠ key)
    (hcol : hasCol t c = true) :
    getVal (overwriteRow t r key) c = v := by
  unfold overwriteRow
  refine getVal_foldl_setVal_mem _ t c v ?_ ?_ hcol
  · exact List.Nodup.sublist (List.Sublist.map Prod.fst (List.filter_sublist r)) hnd
  · exact List.mem_filter.mpr ⟨hmem, by simpa using hne⟩

/-- The `UPDATE` of `_upsert_dimension` never touches the key column. -/
theorem getVal_overwriteRow_key (t r : Row) (key : String) :
    getVal (overwriteRow t r key) key = getVal t key := by
  unfold overwriteRow
  refine getVal_foldl_setVal_notmem _ t key fun q hq => ?_
  have := (List.mem_filter.mp hq).2
  simpa using this

/-- C2 amended: `_upsert_dimension` is a Type-1 (overwrite-in-place)
upsert, not SCD-2.  When some stored row already has the incoming row's
unique-key value, every such row is updated in place (each non-key
incoming column the stored row has gets the incoming value, the key
column is untouched), the table length is unchanged — no history row is
inserted — and the counts are (inserted, updated) = (0, 1); a row is
appended only when no stored row has the key. -/
theorem c2_type1_upsert (tbl : List Row) (r : Row) (key : String) :
    ((∃ t ∈ tbl, keyMatches key r t = true) →
       (upsertDimension tbl [r] key).1
         = tbl.map (fun t => if keyMatches key r t then overwriteRow t r key else t) ∧
       (upsertDimension tbl [r] key).1.length = tbl.length ∧
       (upsertDimension tbl [r] key).2 = (0, 1)) ∧
    ((∀ t ∈ tbl, ¬ keyMatches key r t = true) →
       (upsertDimension tbl [r] key).1 = tbl ++ [r] ∧
       (upsertDimension tbl [r] key).2 = (1, 0)) ∧
    (∀ (t : Row) (c : String) (v : Val),
       (r.map Prod.fst).Nodup → (c, v) ∈ r → c ≠ key → hasCol t c = true →
       getVal (overwriteRow t r key) c = v) ∧
    (∀ t : Row, getVal (overwriteRow t r key) key = getVal t key) := by
  refine ⟨?_, ?_, ?_, ?_⟩
  · rintro ⟨t, ht, hm⟩
    have hc : 0 < tbl.countP (keyMatches key r) := List.countP_pos_iff.mpr ⟨t, ht, hm⟩
    simp [upsertDimension, upsertStep, hc]
  · intro h
    have hc : tbl.countP (keyMatches key r) = 0 := List.countP_eq_zero.mpr h
    simp [upsertDimension, upsertStep, hc]
  · exact fun t c v hnd hm hne hcol => getVal_overwriteRow_mem t r key c v hnd hm hne hcol
  · exact fun t => getVal_overwriteRow_key t r key

/-- C2 witness: the Type-1 characterization instantiated at the concrete
state CA → NY upsert for natural key 1. -/
theorem c2_type1_upsert_witness :
    (upsertDimension dimTblCex dimBatchCex ("customer_id")).1
      = dimTblCex.map (fun t =>
          if keyMatches ("customer_id") [("customer_id", Val.int 1), ("state", Val.str ("NY"))] t
          then overwriteRow t [("customer_id", Val.int 1), ("state", Val.str ("NY"))] ("customer_id")
          else t) ∧
    (upsertDimension dimTblCex dimBatchCex ("customer_id")).1.length = dimTblCex.length ∧
    (upsertDimension dimTblCex dimBatchCex ("customer_id")).2 = (0, 1) :=
  (c2_type1_upsert dimTblCex [("customer_id", Val.int 1), ("state", Val.str ("NY"))]
    ("customer_id")).1
    ⟨[("customer_id", Val.int 1), ("state", Val.str ("CA"))], by decide, by decide⟩

/-! ### C3 -/

/-- The strict timestamp filter keeps a row iff its timestamp value
strictly exceeds the watermark timestamp. -/
theorem afterTs_iff (t : ℤ) (tsCol : String) (r : Row) :
    afterTs t tsCol r = true ↔ ∃ v, getTs tsCol r = some v ∧ t < v := by
  unfold afterTs
  cases hg : getTs tsCol r <;> simp [hg]

/-- The date-fallback filter keeps a row iff its timestamp's date
strictly exceeds the watermark date. -/
theorem afterDate_iff (d : ℤ) (tsCol : String) (r : Row) :
    afterDate d tsCol r = true ↔ ∃ v, getTs tsCol r = some v ∧ d < dateOf v := by
  unfold afterDate
  cases hg : getTs tsCol r <;> simp [hg]

/-- C3 counterexample: with a date-only watermark (day 5) and a source
row at day 3, dimension mode keeps the row (it treats a date-only
watermark as a first run and keeps everything), while the claim — and
fact mode — require keeping exactly the rows with
date(timestamp_column) > last_loaded_date, i.e. none here. -/
theorem c3_counterexample :
    newRecordsDim (some wmDateOnly) dfDim ("event_time") = dfDim.rows ∧
    dfDim.rows.length = 1 ∧
    dfDim.rows.filter (afterDate 5 ("event_time")) = [] ∧
    newRecordsFact (some wmDateOnly) dfDim ("event_time") = [] := by
  decide

/-- C3 amended: when a timestamp watermark exists both modes keep exactly
the rows with timestamp strictly greater than it (a row equal to the
watermark is never kept); when only a date watermark exists, fact mode
keeps exactly the rows with date(timestamp) strictly greater than it but
dimension mode treats the state as a first run and keeps all rows; when
neither exists both modes keep all rows. -/
theorem c3_filter_semantics (w : Option Watermark) (df : DataFrame) (tsCol : String) :
    (∀ wm t, w = some wm → wm.ts = some t →
       ∀ r : Row,
         (r ∈ newRecordsFact w df tsCol ↔
            r ∈ df.rows ∧ ∃ v, getTs tsCol r = some v ∧ t < v) ∧
         (r ∈ newRecordsDim w df tsCol ↔
            r ∈ df.rows ∧ ∃ v, getTs tsCol r = some v ∧ t < v)) ∧
    (∀ wm d, w = some wm → wm.ts = none → wm.dt = some d →
       (∀ r : Row, r ∈ newRecordsFact w df tsCol ↔
          r ∈ df.rows ∧ ∃ v, getTs tsCol r = some v ∧ d < dateOf v) ∧
       newRecordsDim w df tsCol = df.rows) ∧
    ((w = none ∨ ∃ wm, w = some wm ∧ wm.ts = none ∧ wm.dt = none) →
       newRecordsFact w df tsCol = df.rows ∧ newRecordsDim w df tsCol = df.rows) := by
  refine ⟨?_, ?_, ?_⟩
  · rintro wm t rfl hts r
    obtain ⟨wts, wdt, winv, wp, wr⟩ := wm
    cases hts
    constructor
    · rw [show newRecordsFact (some ⟨some t, wdt, winv, wp, wr⟩) df tsCol
          = df.rows.filter (afterTs t tsCol) from rfl]
      rw [List.mem_filter, afterTs_iff]
    · rw [show newRecordsDim (some ⟨some t, wdt, winv, wp, wr⟩) df tsCol
          = df.rows.filter (afterTs t tsCol) from rfl]
      rw [List.mem_filter, afterTs_iff]
  · rintro wm d rfl hts hdt
    obtain ⟨wts, wdt, winv, wp, wr⟩ := wm
    cases hts; cases hdt
    constructor
    · intro r
      rw [show newRecordsFact (some ⟨none, some d, winv, wp, wr⟩) df tsCol
          = df.rows.filter (afterDate d tsCol) from rfl]
      rw [List.mem_filter, afterDate_iff]
    · rfl
  · rintro (rfl | ⟨wm, rfl, hts, hdt⟩)
    · exact ⟨rfl, rfl⟩
    · obtain ⟨wts, wdt, winv, wp, wr⟩ := wm
      cases hts; cases hdt
      exact ⟨rfl, rfl⟩

/-- A timestamp-only watermark at timestamp 900. -/
def wmTsOnly : Watermark := ⟨some 900, none, none, 0, 0⟩

/-- C3 witness: the filter characterization instantiated at a timestamp
watermark of 900 and the concrete one-row fact source (row timestamp
1000 > 900, so it is kept by both modes). -/
theorem c3_filter_semantics_witness :
    ((factDf.rows.headI : Row) ∈ newRecordsFact (some wmTsOnly) factDf ("transaction_date") ↔
       (factDf.rows.headI : Row) ∈ factDf.rows ∧
       ∃ v, getTs ("transaction_date") (factDf.rows.headI : Row) = some v ∧ 900 < v) ∧
    ((factDf.rows.headI : Row) ∈ newRecordsDim (some wmTsOnly) factDf ("transaction_date") ↔
       (factDf.rows.headI : Row) ∈ factDf.rows ∧
       ∃ v, getTs ("transaction_date") (factDf.rows.headI : Row) = some v ∧ 900 < v) :=
  (c3_filter_semantics (some wmTsOnly) factDf ("transaction_date")).1 wmTsOnly 900 rfl rfl
    (factDf.rows.headI : Row)

/-! ### C5 -/

/-- A null value is exactly `Val.null`. -/
theorem isNull_iff (v : Val) : v.isNull = true ↔ v = Val.null := by
  cases v <;> simp [Val.isNull]

/-- A negative value is exactly a negative integer. -/
theorem isNeg_iff (v : Val) : v.isNeg = true ↔ ∃ n : ℤ, v = Val.int n ∧ n < 0 := by
  cases v <;> simp [Val.isNeg]

/-- The claim's rejection predicate: some declared critical column
present in the data is null, or some numeric amount/quantity/price
column is negative. -/
def rejectedSpec (df : DataFrame) (table : String) (r : Row) : Prop :=
  (∃ c ∈ criticalColumns table, df.cols.contains c = true ∧ getVal r c = Val.null) ∨
  (∃ c ∈ df.numCols, amountLike c = true ∧ ∃ n : ℤ, getVal r c = Val.int n ∧ n < 0)

/-- The validity mask of `_validate_records` clears a row exactly when
the claim's rejection predicate holds for it. -/
theorem validRow_false_iff (df : DataFrame) (table : String) (r : Row) :
    validRow df table r = false ↔ rejectedSpec df table r := by
  rw [← Bool.not_eq_true]
  unfold validRow rejectedSpec
  rw [Bool.and_eq_true, not_and_or]
  constructor
  · rintro (h | h)
    · rw [List.all_eq_true] at h
      push_neg at h
      obtain ⟨c, hc, hcond⟩ := h
      by_cases hA : df.cols.contains c
      · rw [if_pos hA] at hcond
        have hnull : (getVal r c).isNull = true := by simpa using hcond
        exact Or.inl ⟨c, hc, hA, (isNull_iff _).mp hnull⟩
      · rw [if_neg hA] at hcond; exact absurd rfl hcond
    · rw [List.all_eq_true] at h
      push_neg at h
      obtain ⟨c, hc, hcond⟩ := h
      by_cases hA : amountLike c
      · rw [if_pos hA] at hcond
        have hneg' : (getVal r c).isNeg = true := by simpa using hcond
        obtain ⟨n, hn, hneg⟩ := (isNeg_iff _).mp hneg'
        exact Or.inr ⟨c, hc, hA, n, hn, hneg⟩
      · rw [if_neg hA] at hcond; exact absurd rfl hcond
  · rintro (⟨c, hc, hA, hnull⟩ | ⟨c, hc, hA, n, hn, hneg⟩)
    · refine Or.inl ?_
      rw [List.all_eq_true]
      push_neg
      exact ⟨c, hc, by rw [if_pos hA, hnull]; simp [Val.isNull]⟩
    · refine Or.inr ?_
      rw [List.all_eq_true]
      push_neg
      exact ⟨c, hc, by rw [if_pos hA, hn]; simp [Val.isNeg, hneg]⟩

/-- C5: `_validate_records` partitions the input rows — the two returned
lists together are a permutation of the input (so a multiply-failing row
is counted once) — and a row lands in `rejected_rows` exactly when some
critical column present in the data is null or some numeric
amount/quantity/price column is negative, in `valid_rows` exactly
otherwise; a table outside the critical-column mapping has an empty
critical-column list. -/
theorem c5_validator_partition (df : DataFrame) (table : String) :
    ((validateRecords df table).1 ++ (validateRecords df table).2).Perm df.rows ∧
    (∀ r : Row, r ∈ (validateRecords df table).2 ↔
       r ∈ df.rows ∧ rejectedSpec df table r) ∧
    (∀ r : Row, r ∈ (validateRecords df table).1 ↔
       r ∈ df.rows ∧ ¬ rejectedSpec df table r) ∧
    (criticalColumns table = [] ∨
       table ∈ [("fact_sales"), ("dim_product"), ("dim_customer"), ("dim_store")]) := by
  refine ⟨List.filter_append_perm (validRow df table) df.rows, ?_, ?_, ?_⟩
  · intro r
    show r ∈ df.rows.filter (fun r => !validRow df table r) ↔ _
    rw [List.mem_filter, Bool.not_eq_true', validRow_false_iff]
  · intro r
    show r ∈ df.rows.filter (validRow df table) ↔ _
    have hb : validRow df table r = true ↔ ¬ rejectedSpec df table r := by
      rw [← validRow_false_iff]
      cases hv : validRow df table r <;> simp
    rw [List.mem_filter, hb]
  · unfold criticalColumns
    split_ifs <;> simp [*]

/-! ### C1 -/

/-- C1 failing run: `update_watermark` contains only a SQL `UPDATE`, so
when no watermark row exists for the ('fact_sales', source) pair the
first load's watermark write matches zero rows and no watermark is
created; the second identical call again sees no watermark, treats the
full source as a first run and returns inserted 1 / rejected 0 / total 1
instead of the claimed zeros.  In contrast, when a blank watermark row
already exists the first load advances it to the source maximum
(timestamp 1000, day 0) and the second call does return all zeros —
pinpointing the missing-INSERT slip. -/
theorem c1_watermark_never_created :
    loadFactSalesE okEnv none factDf ("transaction_date")
      = (Except.ok ⟨1, 0, 1⟩, none) ∧
    (loadFactSalesE okEnv
        (loadFactSalesE okEnv none factDf ("transaction_date")).2
        factDf ("transaction_date")).1
      = Except.ok ⟨1, 0, 1⟩ ∧
    (loadFactSalesE okEnv none factDf ("transaction_date")).1 ≠ Except.ok ⟨0, 0, 0⟩ ∧
    (loadFactSalesE okEnv (some blankWatermark) factDf ("transaction_date")).2
      = some ⟨some 1000, some 0, none, 1, 0⟩ ∧
    (loadFactSalesE okEnv
        (loadFactSalesE okEnv (some blankWatermark) factDf ("transaction_date")).2
        factDf ("transaction_date")).1
      = Except.ok ⟨0, 0, 0⟩ := by
  decide

/-! ### C8 -/

/-- C8: a fact-mode load that reaches the write path (some rows survive
the filter) and hits an exception in validation, in the append of valid
rows, or in the watermark update, propagates the exception to the caller
(`Except.error`, the bare `raise` of the source) and leaves the watermark
record exactly as it was before the call. -/
theorem c8_failure_atomicity (env : StepOutcomes) (store : Option Watermark)
    (df : DataFrame) (tsCol : String)
    (hrun : (newRecordsFact store df tsCol).length ≠ 0)
    (hfail : env.validateOk = false ∨
      (env.appendOk = false ∧
        0 < (validateRecords
              ⟨df.cols, df.numCols, sortRows (tsLe tsCol) (newRecordsFact store df tsCol)⟩
              ("fact_sales")).1.length) ∨
      env.watermarkOk = false) :
    (∃ msg, (loadFactSalesE env store df tsCol).1 = Except.error msg) ∧
    (loadFactSalesE env store df tsCol).2 = store := by
  obtain ⟨v, a, wk⟩ := env
  unfold loadFactSalesE
  rw [if_neg hrun]
  rcases hfail with hv | ⟨ha, hpos⟩ | hw
  · cases hv
    exact ⟨⟨("validation"), rfl⟩, rfl⟩
  · cases ha
    cases v
    · exact ⟨⟨("validation"), rfl⟩, rfl⟩
    · simp only [Bool.not_true, if_neg (by simp : ¬ (false = true))]
      rw [if_pos (by simpa using hpos)]
      exact ⟨⟨("append"), rfl⟩, rfl⟩
  · cases hw
    cases v
    · exact ⟨⟨("validation"), rfl⟩, rfl⟩
    · simp only [Bool.not_true, if_neg (by simp : ¬ (false = true))]
      by_cases hp : 0 < (validateRecords
          ⟨df.cols, df.numCols, sortRows (tsLe tsCol) (newRecordsFact store df tsCol)⟩
          ("fact_sales")).1.length ∧ a = false
      · rw [if_pos (by simp [hp.1, hp.2])]
        exact ⟨⟨("append"), rfl⟩, rfl⟩
      · rw [if_neg (by
          intro hcontra
          rcases Bool.and_eq_true_iff.mp hcontra with ⟨h1, h2⟩
          exact hp ⟨by simpa using h1, by simpa using h2⟩)]
        simp only [Bool.not_false, if_pos rfl]
        exact ⟨⟨("watermark"), rfl⟩, rfl⟩

/-- C8 witness: a watermark-update failure on the concrete one-row load
over the blank watermark raises and leaves the store unchanged. -/
theorem c8_failure_atomicity_witness :
    (∃ msg, (loadFactSalesE ⟨true, true, false⟩ (some blankWatermark) factDf
        ("transaction_date")).1 = Except.error msg) ∧
    (loadFactSalesE ⟨true, true, false⟩ (some blankWatermark) factDf
        ("transaction_date")).2 = some blankWatermark :=
  c8_failure_atomicity ⟨true, true, false⟩ (some blankWatermark) factDf
    ("transaction_date") (by decide) (Or.inr (Or.inr rfl))

/-! ### C6 -/

/-- Order `≤` on nullable fields: every present old value stays present and
does not decrease. -/
def optLe (a b : Option ℤ) : Prop :=
  ∀ x, a = some x → ∃ y, b = some y ∧ x ≤ y

/-- Watermark order: timestamp, date and natural key non-decreasing,
counters non-decreasing. -/
def wmLe (w w' : Watermark) : Prop :=
  optLe w.ts w'.ts ∧ optLe w.dt w'.dt ∧ optLe w.inv w'.inv ∧
    w.proc ≤ w'.proc ∧ w.rej ≤ w'.rej

/-- Store order: a present watermark stays present and grows. -/
def storeLe (s s' : Option Watermark) : Prop :=
  ∀ w, s = some w → ∃ w', s' = some w' ∧ wmLe w w'

/-- Well-formed watermark: when both a timestamp and a date are present,
the date is at most the timestamp's date.  Every watermark state the
repository's loaders produce satisfies this (the `IncrementalLoader`
always writes the date of the timestamp it writes; the standalone
scripts write a date with no timestamp). -/
def wmWF (w : Watermark) : Prop :=
  ∀ t d, w.ts = some t → w.dt = some d → d ≤ dateOf t

/-- Well-formedness of the optional watermark record. -/
def storeWF (s : Option Watermark) : Prop :=
  ∀ w, s = some w → wmWF w

theorem optLe_refl (a : Option ℤ) : optLe a a :=
  fun x h => ⟨x, h, le_refl x⟩

theorem optLe_trans {a b c : Option ℤ} (h1 : optLe a b) (h2 : optLe b c) :
    optLe a c := by
  intro x hx
  obtain ⟨y, hy, hxy⟩ := h1 x hx
  obtain ⟨z, hz, hyz⟩ := h2 y hy
  exact ⟨z, hz, le_trans hxy hyz⟩

theorem wmLe_refl (w : Watermark) : wmLe w w :=
  ⟨optLe_refl _, optLe_refl _, optLe_refl _, le_refl _, le_refl _⟩

theorem wmLe_trans {w1 w2 w3 : Watermark} (h1 : wmLe w1 w2) (h2 : wmLe w2 w3) :
    wmLe w1 w3 :=
  ⟨optLe_trans h1.1 h2.1, optLe_trans h1.2.1 h2.2.1,
   optLe_trans h1.2.2.1 h2.2.2.1, le_trans h1.2.2.2.1 h2.2.2.2.1,
   le_trans h1.2.2.2.2 h2.2.2.2.2⟩

theorem storeLe_refl (s : Option Watermark) : storeLe s s :=
  fun w h => ⟨w, h, wmLe_refl w⟩

theorem storeLe_trans {s1 s2 s3 : Option Watermark} (h1 : storeLe s1 s2)
    (h2 : storeLe s2 s3) : storeLe s1 s3 := by
  intro w hw
  obtain ⟨w2, hw2, hle⟩ := h1 w hw
  obtain ⟨w3, hw3, hle'⟩ := h2 w2 hw2
  exact ⟨w3, hw3, wmLe_trans hle hle'⟩

/-- The day-number projection is monotone. -/
theorem dateOf_mono {a b : ℤ} (h : a ≤ b) : dateOf a ≤ dateOf b :=
  Int.ediv_le_ediv (by norm_num) h

/-- A present running maximum never decreases along the fold. -/
theorem foldl_maxTsStep_acc (tsCol : String) :
    ∀ (rows : List Row) (acc : Option ℤ) (x : ℤ), acc = some x →
      ∃ M, rows.foldl (maxTsStep tsCol) acc = some M ∧ x ≤ M := by
  intro rows
  induction rows with
  | nil => intro acc x h; subst h; exact ⟨x, rfl, le_refl x⟩
  | cons r tl ih =>
    intro acc x h
    subst h
    have hstep : ∃ y, maxTsStep tsCol (some x) r = some y ∧ x ≤ y := by
      cases hg : getTs tsCol r with
      | none => exact ⟨x, by simp [maxTsStep, hg], le_refl x⟩
      | some v => exact ⟨max x v, by simp [maxTsStep, hg], le_max_left x v⟩
    obtain ⟨y, hy, hxy⟩ := hstep
    rw [List.foldl_cons]
    obtain ⟨M, hM, hyM⟩ := ih (maxTsStep tsCol (some x) r) y hy
    exact ⟨M, hM, le_trans hxy hyM⟩

/-- The running maximum dominates every timestamp present in the rows. -/
theorem foldl_maxTsStep_mem (tsCol : String) :
    ∀ (rows : List Row) (acc : Option ℤ) (r : Row), r ∈ rows →
      ∀ v, getTs tsCol r = some v →
      ∃ M, rows.foldl (maxTsStep tsCol) acc = some M ∧ v ≤ M := by
  intro rows
  induction rows with
  | nil => intro _ r hr; cases hr
  | cons a tl ih =>
    intro acc r hr v hv
    rw [List.foldl_cons]
    rcases List.mem_cons.mp hr with rfl | htl
    · have hstep : ∃ y, maxTsStep tsCol acc r = some y ∧ v ≤ y := by
        cases acc with
        | none => exact ⟨v, by simp [maxTsStep, hv], le_refl v⟩
        | some m => exact ⟨max m v, by simp [maxTsStep, hv], le_max_right m v⟩
      obtain ⟨y, hy, hvy⟩ := hstep
      obtain ⟨M, hM, hyM⟩ := foldl_maxTsStep_acc tsCol tl _ y hy
      exact ⟨M, hM, le_trans hvy hyM⟩
    · exact ih _ r htl v hv

/-- The value `maxTs` dominates the timestamp of every row of the frame. -/
theorem maxTs_mem_le (df : DataFrame) (tsCol : String) (r : Row)
    (hr : r ∈ df.rows) (v : ℤ) (hv : getTs tsCol r = some v) :
    ∃ M, maxTs df tsCol = some M ∧ v ≤ M :=
  foldl_maxTsStep_mem tsCol df.rows none r hr v hv

/-- Count of valid rows a fact load writes. -/
def factValid (s : Option Watermark) (df : DataFrame) (tsCol : String) : ℕ :=
  (validateRecords
    ⟨df.cols, df.numCols, sortRows (tsLe tsCol) (newRecordsFact s df tsCol)⟩
    ("fact_sales")).1.length

/-- Count of rejected rows of a fact load. -/
def factRejected (s : Option Watermark) (df : DataFrame) (tsCol : String) : ℕ :=
  (validateRecords
    ⟨df.cols, df.numCols, sortRows (tsLe tsCol) (newRecordsFact s df tsCol)⟩
    ("fact_sales")).2.length

/-- With all database steps succeeding, a fact load either no-ops (no new
rows) or returns the counts and COALESCE-merges the watermark with the
source maximum. -/
theorem loadFact_eq (s : Option Watermark) (df : DataFrame) (tsCol : String) :
    ((newRecordsFact s df tsCol).length = 0 ∧
      loadFactSalesE okEnv s df tsCol = (Except.ok ⟨0, 0, 0⟩, s)) ∨
    ((newRecordsFact s df tsCol).length ≠ 0 ∧
      loadFactSalesE okEnv s df tsCol
        = (Except.ok ⟨factValid s df tsCol, factRejected s df tsCol,
              (newRecordsFact s df tsCol).length⟩,
           updateWatermark s (maxTs df tsCol) ((maxTs df tsCol).map dateOf) none
             (factValid s df tsCol) (factRejected s df tsCol))) := by
  by_cases h0 : (newRecordsFact s df tsCol).length = 0
  · left
    refine ⟨h0, ?_⟩
    unfold loadFactSalesE
    rw [if_pos h0]
  · right
    refine ⟨h0, ?_⟩
    unfold loadFactSalesE factValid factRejected
    rw [if_neg h0]
    simp [okEnv]

/-- A watermark merged with a dominating timestamp and its date grows. -/
theorem wmLe_update_someM (w : Watermark) (M : ℤ) (ins rej : ℕ)
    (h : ∀ t, w.ts = some t → t ≤ M)
    (hdt : ∀ d, w.dt = some d → d ≤ dateOf M) :
    wmLe w ⟨some M, some (dateOf M), w.inv, w.proc + ins, w.rej + rej⟩ :=
  ⟨fun x hx => ⟨M, rfl, h x hx⟩,
   fun x hx => ⟨dateOf M, rfl, hdt x hx⟩,
   optLe_refl _, Nat.le_add_right _ _, Nat.le_add_right _ _⟩

/-- A watermark whose date is the date of its timestamp is well-formed. -/
theorem wmWF_someM (M : ℤ) (i : Option ℤ) (p q : ℕ) :
    wmWF ⟨some M, some (dateOf M), i, p, q⟩ := by
  intro t d ht hd
  cases ht; cases hd
  exact le_refl _

/-- One successful fact-mode load grows the watermark and preserves
well-formedness. -/
theorem loadFact_step_mono (s : Option Watermark) (df : DataFrame)
    (tsCol : String) (hwf : storeWF s) :
    storeLe s (loadFactSalesE okEnv s df tsCol).2 ∧
    storeWF (loadFactSalesE okEnv s df tsCol).2 := by
  rcases loadFact_eq s df tsCol with ⟨h0, heq⟩ | ⟨h0, heq⟩
  · rw [heq]; exact ⟨storeLe_refl s, hwf⟩
  · rw [heq]; dsimp only
    cases s with
    | none =>
      exact ⟨fun w0 hw0 => by simp [updateWatermark] at hw0,
             fun w0 hw0 => by simp [updateWatermark] at hw0⟩
    | some w =>
      obtain ⟨wts, wdt, winv, wp, wr⟩ := w
      have hne : newRecordsFact (some ⟨wts, wdt, winv, wp, wr⟩) df tsCol ≠ [] := by
        intro hnil; rw [hnil] at h0; simp at h0
      obtain ⟨r, hr⟩ := List.exists_mem_of_ne_nil _ hne
      cases wts with
      | some t =>
        have hr' : r ∈ df.rows.filter (afterTs t tsCol) := hr
        rw [List.mem_filter] at hr'
        obtain ⟨v, hv, htv⟩ := (afterTs_iff t tsCol r).mp hr'.2
        obtain ⟨M, hM, hvM⟩ := maxTs_mem_le df tsCol r hr'.1 v hv
        have htM : t ≤ M := le_of_lt (lt_of_lt_of_le htv hvM)
        rw [hM]
        simp only [Option.map_some', updateWatermark, coalesce]
        have hwfw := hwf _ rfl
        refine ⟨fun w0 hw0 => ?_, fun w0 hw0 => ?_⟩
        · cases hw0
          refine ⟨_, rfl, wmLe_update_someM _ M _ _ ?_ ?_⟩
          · intro t' ht'; cases ht'; exact htM
          · intro d hd
            exact le_trans (hwfw t d rfl hd) (dateOf_mono htM)
        · cases hw0
          exact wmWF_someM M winv _ _
      | none =>
        cases wdt with
        | some d =>
          have hr' : r ∈ df.rows.filter (afterDate d tsCol) := hr
          rw [List.mem_filter] at hr'
          obtain ⟨v, hv, hdv⟩ := (afterDate_iff d tsCol r).mp hr'.2
          obtain ⟨M, hM, hvM⟩ := maxTs_mem_le df tsCol r hr'.1 v hv
          have hdM : d ≤ dateOf M := le_of_lt (lt_of_lt_of_le hdv (dateOf_mono hvM))
          rw [hM]
          simp only [Option.map_some', updateWatermark, coalesce]
          refine ⟨fun w0 hw0 => ?_, fun w0 hw0 => ?_⟩
          · cases hw0
            refine ⟨_, rfl, wmLe_update_someM _ M _ _ ?_ ?_⟩
            · intro t' ht'; cases ht'
            · intro d' hd'; cases hd'; exact hdM
          · cases hw0
            exact wmWF_someM M winv _ _
        | none =>
          cases hM : maxTs df tsCol with
          | some M =>
            simp only [Option.map_some', updateWatermark, coalesce]
            refine ⟨fun w0 hw0 => ?_, fun w0 hw0 => ?_⟩
            · cases hw0
              refine ⟨_, rfl, wmLe_update_someM _ M _ _ ?_ ?_⟩
              · intro t' ht'; cases ht'
              · intro d' hd'; cases hd'
            · cases hw0
              exact wmWF_someM M winv _ _
          | none =>
            simp only [Option.map_none', updateWatermark, coalesce]
            refine ⟨fun w0 hw0 => ?_, fun w0 hw0 => ?_⟩
            · cases hw0
              refine ⟨_, rfl, ?_, ?_, optLe_refl _,
                Nat.le_add_right _ _, Nat.le_add_right _ _⟩
              · intro x hx; cases hx
              · intro x hx; cases hx
            · cases hw0
              intro t' d' ht' hd'; cases ht'

/-- A sequence of fact-mode loads against the same (table, source) pair:
each batch is a source frame with its timestamp column. -/
def loadFactSeq (store : Option Watermark) (batches : List (DataFrame × String)) :
    Option Watermark :=
  batches.foldl (fun s b => (loadFactSalesE okEnv s b.1 b.2).2) store

/-- Monotonicity and well-formedness along any load sequence. -/
theorem loadFactSeq_mono :
    ∀ (batches : List (DataFrame × String)) (s : Option Watermark),
      storeWF s → storeLe s (loadFactSeq s batches) ∧ storeWF (loadFactSeq s batches) := by
  intro batches
  induction batches with
  | nil => intro s h; exact ⟨storeLe_refl s, h⟩
  | cons b tl ih =>
    intro s h
    have hstep := loadFact_step_mono s b.1 b.2 h
    have hrest := ih (loadFactSalesE okEnv s b.1 b.2).2 hstep.2
    have hfold : loadFactSeq s (b :: tl)
        = loadFactSeq (loadFactSalesE okEnv s b.1 b.2).2 tl := by
      simp [loadFactSeq]
    rw [hfold]
    exact ⟨storeLe_trans hstep.1 hrest.1, hrest.2⟩

/-- A successful updating load adds exactly this call's inserted and
rejected counts to the stored counters and leaves the natural key
untouched. -/
theorem loadFact_acc (s : Option Watermark) (df : DataFrame) (tsCol : String)
    (w w' : Watermark) (res : LoadResult) (hs : s = some w)
    (h : loadFactSalesE okEnv s df tsCol = (Except.ok res, some w')) :
    w'.proc = w.proc + res.inserted ∧ w'.rej = w.rej + res.rejected ∧
    w'.inv = w.inv := by
  subst hs
  rcases loadFact_eq (some w) df tsCol with ⟨h0, heq⟩ | ⟨h0, heq⟩
  · rw [heq] at h
    obtain ⟨h1, h2⟩ := Prod.mk.injEq .. ▸ h
    have hres : res = ⟨0, 0, 0⟩ := by
      cases h1; rfl
    have hw : w' = w := by
      cases h2; rfl
    subst hres; subst hw
    exact ⟨rfl, rfl, rfl⟩
  · rw [heq] at h
    obtain ⟨h1, h2⟩ := Prod.mk.injEq .. ▸ h
    have hres : res = ⟨factValid (some w) df tsCol, factRejected (some w) df tsCol,
        (newRecordsFact (some w) df tsCol).length⟩ := by
      cases h1; rfl
    subst hres
    have h2' : updateWatermark (some w) (maxTs df tsCol)
        ((maxTs df tsCol).map dateOf) none (factValid (some w) df tsCol)
        (factRejected (some w) df tsCol) = some w' := h2.symm ▸ rfl
    rw [show updateWatermark (some w) (maxTs df tsCol)
        ((maxTs df tsCol).map dateOf) none (factValid (some w) df tsCol)
        (factRejected (some w) df tsCol)
      = some ⟨coalesce (maxTs df tsCol) w.ts,
              coalesce ((maxTs df tsCol).map dateOf) w.dt,
              coalesce none w.inv,
              w.proc + factValid (some w) df tsCol,
              w.rej + factRejected (some w) df tsCol⟩ from rfl] at h2'
    cases h2'
    exact ⟨rfl, rfl, rfl⟩

/-- C6: along any sequence of fact-mode loads against the same pair,
starting from any well-formed store, the watermark's timestamp, date and
natural-key values are non-decreasing (present values stay present and
never shrink) and the counters are non-decreasing; moreover each
successful updating call adds exactly its own inserted/rejected counts
to the stored counters — they are accumulated, never reset — and leaves
the natural key unchanged. -/
theorem c6_watermark_monotonic (store : Option Watermark)
    (batches : List (DataFrame × String)) (hwf : storeWF store) :
    storeLe store (loadFactSeq store batches) ∧
    storeWF (loadFactSeq store batches) ∧
    (∀ (df : DataFrame) (tsCol : String) (w w' : Watermark) (res : LoadResult),
      store = some w →
      loadFactSalesE okEnv store df tsCol = (Except.ok res, some w') →
      w'.proc = w.proc + res.inserted ∧ w'.rej = w.rej + res.rejected ∧
      w'.inv = w.inv) :=
  ⟨(loadFactSeq_mono batches store hwf).1,
   (loadFactSeq_mono batches store hwf).2,
   fun df tsCol w w' res hs h => loadFact_acc store df tsCol w w' res hs h⟩

/-- C6 witness: the monotonicity statement instantiated at the blank
pre-created watermark row and the concrete one-row source batch. -/
theorem c6_watermark_monotonic_witness :
    storeLe (some blankWatermark)
      (loadFactSeq (some blankWatermark) [(factDf, ("transaction_date"))]) ∧
    storeWF (loadFactSeq (some blankWatermark) [(factDf, ("transaction_date"))]) ∧
    (∀ (df : DataFrame) (tsCol : String) (w w' : Watermark) (res : LoadResult),
      some blankWatermark = some w →
      loadFactSalesE okEnv (some blankWatermark) df tsCol = (Except.ok res, some w') →
      w'.proc = w.proc + res.inserted ∧ w'.rej = w.rej + res.rejected ∧
      w'.inv = w.inv) :=
  c6_watermark_monotonic (some blankWatermark) [(factDf, ("transaction_date"))]
    (by
      intro w hw; cases hw
      intro t d ht hd
      simp [blankWatermark] at ht)

/-! ### C4 -/

/-- In a list whose `p`-filtered part has at most one element, any two
members satisfying `p` coincide. -/
theorem mem_eq_of_filter_length_le_one {α : Type} {p : α → Bool} {l : List α}
    (h : (l.filter p).length ≤ 1) {a b : α} (ha : a ∈ l) (hpa : p a = true)
    (hb : b ∈ l) (hpb : p b = true) : a = b := by
  have ha' : a ∈ l.filter p := List.mem_filter.mpr ⟨ha, hpa⟩
  have hb' : b ∈ l.filter p := List.mem_filter.mpr ⟨hb, hpb⟩
  rcases hl : l.filter p with _ | ⟨x, _ | ⟨y, tl⟩⟩
  · rw [hl] at ha'; cases ha'
  · rw [hl] at ha' hb'
    have h1 : a = x := by simpa using ha'
    have h2 : b = x := by simpa using hb'
    rw [h1, h2]
  · rw [hl] at h; simp at h

/-- SCD exclusivity invariant: for every natural key, at most one
`dim_customer` row is current. -/
def atMostOneCurrent (tbl : List CustRow) : Prop :=
  ∀ cid : ℤ, (tbl.filter (curFor cid)).length ≤ 1

/-- The three shapes the table can take after one SCD iteration:
append-on-new-key, expire-then-append-on-change, or unchanged. -/
theorem scdStep_table (today : ℤ) (stc : ScdState × ScdCounts) (r : CustIncoming) :
    (findCurrent stc.1.table r.customerId = none ∧
      (scdStep today stc r).1.table
        = stc.1.table ++ [mkCustRow stc.1.nextKey r today]) ∨
    (∃ cur, findCurrent stc.1.table r.customerId = some cur ∧ scdChanged cur r = true ∧
      (scdStep today stc r).1.table
        = (stc.1.table.map fun t =>
            if t.customerKey = cur.customerKey then expireRow today t else t)
          ++ [mkCustRow stc.1.nextKey r today]) ∨
    (∃ cur, findCurrent stc.1.table r.customerId = some cur ∧ scdChanged cur r = false ∧
      (scdStep today stc r).1.table = stc.1.table) := by
  obtain ⟨st, c⟩ := stc
  unfold scdStep
  cases hf : findCurrent st.table r.customerId with
  | none => exact Or.inl ⟨rfl, rfl⟩
  | some cur =>
    by_cases hch : scdChanged cur r
    · exact Or.inr (Or.inl ⟨cur, rfl, hch, by simp [hch]⟩)
    · exact Or.inr (Or.inr ⟨cur, rfl, by simpa using hch, by simp [hch]⟩)

/-- The fresh row matches only its own natural key's current-row
predicate. -/
theorem curFor_mkCustRow (cid : ℤ) (k : ℕ) (r : CustIncoming) (today : ℤ) :
    curFor cid (mkCustRow k r today) = decide (r.customerId = cid) := by
  simp [curFor, mkCustRow]

/-- One SCD iteration preserves at-most-one-current. -/
theorem scdStep_exclusive (today : ℤ) (stc : ScdState × ScdCounts)
    (r : CustIncoming) (h : atMostOneCurrent stc.1.table) :
    atMostOneCurrent (scdStep today stc r).1.table := by
  rcases scdStep_table today stc r with ⟨hf, heq⟩ | ⟨cur, hf, hch, heq⟩ | ⟨cur, hf, hch, heq⟩
  · rw [heq]
    intro cid
    rw [List.filter_append]
    by_cases hcid : cid = r.customerId
    · subst hcid
      have hnil : stc.1.table.filter (curFor r.customerId) = [] := by
        rw [List.filter_eq_nil_iff]
        intro a ha
        simpa using List.find?_eq_none.mp hf a ha
      rw [hnil]
      simp [curFor_mkCustRow]
    · have hmk : curFor cid (mkCustRow stc.1.nextKey r today) = false := by
        rw [curFor_mkCustRow]
        simpa using fun hh => hcid hh.symm
      rw [show List.filter (curFor cid) [mkCustRow stc.1.nextKey r today] = []
          by simp [hmk]]
      simpa using h cid
  · have hcur_mem : cur ∈ stc.1.table := List.mem_of_find?_eq_some hf
    have hcur_p : curFor r.customerId cur = true := List.find?_some hf
    rw [heq]
    intro cid
    rw [List.filter_append]
    by_cases hcid : cid = r.customerId
    · subst hcid
      have hnil : (stc.1.table.map fun t =>
          if t.customerKey = cur.customerKey then expireRow today t else t).filter
            (curFor r.customerId) = [] := by
        rw [List.filter_eq_nil_iff]
        intro a ha
        obtain ⟨t, ht, rfl⟩ := List.mem_map.mp ha
        by_cases hk : t.customerKey = cur.customerKey
        · simp [hk, expireRow, curFor]
        · rw [if_neg hk]
          intro hcf
          exact hk (congrArg CustRow.customerKey
            (mem_eq_of_filter_length_le_one (h r.customerId) ht hcf hcur_mem hcur_p))
      rw [hnil]
      simp [curFor_mkCustRow]
    · have hmk : curFor cid (mkCustRow stc.1.nextKey r today) = false := by
        rw [curFor_mkCustRow]
        simpa using fun hh => hcid hh.symm
      rw [show List.filter (curFor cid) [mkCustRow stc.1.nextKey r today] = []
          by simp [hmk]]
      rw [List.append_nil, ← List.countP_eq_length_filter, List.countP_map]
      calc List.countP (curFor cid ∘ fun t =>
              if t.customerKey = cur.customerKey then expireRow today t else t)
              stc.1.table
          ≤ List.countP (curFor cid) stc.1.table := by
            refine List.countP_mono_left fun t ht hc => ?_
            by_cases hk : t.customerKey = cur.customerKey
            · simp [Function.comp, hk, expireRow, curFor] at hc
            · simpa [Function.comp, hk] using hc
        _ ≤ 1 := by rw [List.countP_eq_length_filter]; exact h cid
  · rw [heq]; exact h

/-- C4: for every natural key at most one `dim_customer` row is current,
and the SCD loop of `load_customer_multisource_incremental` preserves
this across any batch of incoming rows, whatever insert / expire-insert /
skip steps it takes. -/
theorem c4_scd_exclusivity (today : ℤ) (st : ScdState)
    (rows : List CustIncoming) (h : atMostOneCurrent st.table) :
    atMostOneCurrent (scdLoad today st rows).1.table := by
  suffices hgen : ∀ (rows : List CustIncoming) (stc : ScdState × ScdCounts),
      atMostOneCurrent stc.1.table →
      atMostOneCurrent (rows.foldl (scdStep today) stc).1.table by
    exact hgen rows (st, ⟨0, 0, 0⟩) h
  intro rows
  induction rows with
  | nil => intro stc h0; exact h0
  | cons a tl ih =>
    intro stc h0
    rw [List.foldl_cons]
    exact ih (scdStep today stc a) (scdStep_exclusive today stc a h0)

/-- C4 witness: the exclusivity invariant carried through a concrete
two-row batch (insert of key 1, then an SCD change for key 1) from the
empty table. -/
theorem c4_scd_exclusivity_witness :
    atMostOneCurrent
      (scdLoad 10 ⟨[], 0⟩
        [⟨1, none, none, some ("CA"), none, none, some ("RETAIL_OLTP")⟩,
         ⟨1, none, none, some ("NY"), none, none, some ("RETAIL_OLTP")⟩]).1.table :=
  c4_scd_exclusivity 10 ⟨[], 0⟩
    [⟨1, none, none, some ("CA"), none, none, some ("RETAIL_OLTP")⟩,
     ⟨1, none, none, some ("NY"), none, none, some ("RETAIL_OLTP")⟩]
    (fun cid => by simp)

/-! ### C7 -/

/-- C7: when a current row exists for the incoming row's natural key,
the SCD step of `load_customer_multisource_incremental` is a no-op
contributing 0 to the updated count if the tracked attributes (state,
email, customer_segment) are all equal; on any tracked change it counts
one update, appends exactly one fresh row carrying the incoming
attributes with `is_current = TRUE`, `effective_date = today` and the
sentinel expiry, closes the current row (`expiry_date = today`,
`is_current = FALSE`, present in the new table) and keeps every row with
a different surrogate key unchanged. -/
theorem c7_scd_postcondition (today : ℤ) (st : ScdState) (c : ScdCounts)
    (r : CustIncoming) (cur : CustRow)
    (hfind : findCurrent st.table r.customerId = some cur) :
    (cur.state = r.state ∧ cur.email = r.email ∧ cur.segment = r.segment →
       scdStep today (st, c) r = (st, { c with skipped := c.skipped + 1 })) ∧
    (scdChanged cur r = true →
       (scdStep today (st, c) r).2 = { c with updated := c.updated + 1 } ∧
       (scdStep today (st, c) r).1.table.length = st.table.length + 1 ∧
       (scdStep today (st, c) r).1.table.getLast?
         = some (mkCustRow st.nextKey r today) ∧
       (mkCustRow st.nextKey r today).isCurrent = true ∧
       (mkCustRow st.nextKey r today).expiryDate = sentinelDate ∧
       (mkCustRow st.nextKey r today).effectiveDate = today ∧
       (mkCustRow st.nextKey r today).state = r.state ∧
       (mkCustRow st.nextKey r today).email = r.email ∧
       (mkCustRow st.nextKey r today).segment = r.segment ∧
       expireRow today cur ∈ (scdStep today (st, c) r).1.table ∧
       (expireRow today cur).isCurrent = false ∧
       (expireRow today cur).expiryDate = today ∧
       (∀ t ∈ st.table, t.customerKey ≠ cur.customerKey →
          t ∈ (scdStep today (st, c) r).1.table)) := by
  have hcur_mem : cur ∈ st.table := List.mem_of_find?_eq_some hfind
  constructor
  · rintro ⟨h1, h2, h3⟩
    have hch : scdChanged cur r = false := by simp [scdChanged, h1, h2, h3]
    unfold scdStep
    dsimp only
    rw [hfind]
    dsimp only
    rw [if_neg (by rw [hch]; exact Bool.false_ne_true)]
  · intro hch
    have hstep : scdStep today (st, c) r
        = (⟨(st.table.map fun t =>
              if t.customerKey = cur.customerKey then expireRow today t else t)
            ++ [mkCustRow st.nextKey r today], st.nextKey + 1⟩,
           { c with updated := c.updated + 1 }) := by
      unfold scdStep
      dsimp only
      rw [hfind]
      dsimp only
      rw [if_pos hch]
    rw [hstep]
    refine ⟨rfl, ?_, ?_, rfl, rfl, rfl, rfl, rfl, rfl, ?_, rfl, rfl, ?_⟩
    · simp
    · exact List.getLast?_concat _
    · refine List.mem_append_left _ ?_
      have himg := List.mem_map_of_mem
        (fun t => if t.customerKey = cur.customerKey then expireRow today t else t)
        hcur_mem
      dsimp only at himg
      rwa [if_pos rfl] at himg
    · intro t ht hk
      refine List.mem_append_left _ ?_
      have himg := List.mem_map_of_mem
        (fun t => if t.customerKey = cur.customerKey then expireRow today t else t) ht
      dsimp only at himg
      rwa [if_neg hk] at himg

/-- A stored current `dim_customer` row for key 1 with state CA. -/
def custRowCA : CustRow :=
  ⟨0, 1, none, none, some ("CA"), none, none, 5, sentinelDate, true, none⟩

/-- An incoming row for key 1 with unchanged tracked attributes. -/
def custIncCA : CustIncoming := ⟨1, none, none, some ("CA"), none, none, none⟩

/-- C7 witness: re-submitting the unchanged CA row for key 1 leaves the
table untouched and only bumps the skipped counter. -/
theorem c7_scd_postcondition_witness :
    scdStep 10 (⟨[custRowCA], 1⟩, ⟨0, 0, 0⟩) custIncCA
      = (⟨[custRowCA], 1⟩, ⟨0, 0, 1⟩) :=
  (c7_scd_postcondition 10 ⟨[custRowCA], 1⟩ ⟨0, 0, 0⟩ custIncCA custRowCA
    (by decide)).1 (by decide)

/-! ### C9 -/

/-- The script's incremental filter only keeps source rows. -/
theorem scriptFilter_subset (store : Option Watermark) (rows : List SaleRow) :
    ∀ r ∈ scriptFilter store rows, r ∈ rows := by
  intro r hr
  unfold scriptFilter at hr
  cases store with
  | none => exact hr
  | some w =>
    dsimp only at hr
    cases hdt : w.dt with
    | none => rw [hdt] at hr; exact hr
    | some d =>
      rw [hdt] at hr
      dsimp only at hr
      by_cases hg : minRealDate ≤ d
      · rw [if_pos hg] at hr; exact (List.mem_filter.mp hr).1
      · rw [if_neg hg] at hr; exact hr

/-- Shape of the script's effects: the appended fact rows are the
resolved rows of the filtered source (or nothing), and nothing is ever
written to the quarantine table. -/
theorem loadFactSalesScript_shape (store : Option Watermark)
    (pm : List (String × ℕ)) (dim : List CustRow) (sm : List (String × ℕ))
    (rows : List SaleRow) :
    ((loadFactSalesScript store pm dim sm rows).appendedFacts = [] ∨
     (loadFactSalesScript store pm dim sm rows).appendedFacts
       = buildFactRows pm (buildCustomerMap dim) sm (scriptFilter store rows)) ∧
    (loadFactSalesScript store pm dim sm rows).rejectedWrites = [] := by
  unfold loadFactSalesScript
  by_cases h1 : (scriptFilter store rows).length = 0
  · rw [if_pos h1]; exact ⟨Or.inl rfl, rfl⟩
  · rw [if_neg h1]
    by_cases h2 : (buildFactRows pm (buildCustomerMap dim) sm
        (scriptFilter store rows)).length = 0
    · rw [if_pos h2]; exact ⟨Or.inl rfl, rfl⟩
    · rw [if_neg h2]; exact ⟨Or.inr rfl, rfl⟩

/-- A hit in the customer lookup map comes from a current dimension row. -/
theorem buildCustomerMap_mem (dim : List CustRow) (cid : ℤ) (k : ℕ)
    (h : assocLookup (buildCustomerMap dim) cid = some k) :
    ∃ d ∈ dim, d.isCurrent = true ∧ d.customerId = cid ∧ d.customerKey = k := by
  unfold assocLookup at h
  cases hf : (buildCustomerMap dim).find? (fun p => p.1 = cid) with
  | none => rw [hf] at h; cases h
  | some pr =>
    rw [hf] at h
    have hk : pr.2 = k := by injection h
    have hmem := List.mem_of_find?_eq_some hf
    have hp : pr.1 = cid := by simpa using List.find?_some hf
    unfold buildCustomerMap at hmem
    obtain ⟨d, hd, hdd⟩ := List.mem_map.mp hmem
    have hdfil := List.mem_filter.mp hd
    refine ⟨d, hdfil.1, by simpa using hdfil.2, ?_, ?_⟩
    · rw [show d.customerId = pr.1 from by rw [← hdd]]; exact hp
    · rw [show d.customerKey = pr.2 from by rw [← hdd]]; exact hk

/-- A resolved fact row determines successful lookups for all three
foreign keys. -/
theorem resolveFactRow_some (pm : List (String × ℕ)) (cm : List (ℤ × ℕ))
    (sm : List (String × ℕ)) (r : SaleRow) (fr : FactRow)
    (h : resolveFactRow pm cm sm r = some fr) :
    assocLookup pm r.stockCode = some fr.productKey ∧
    assocLookup cm r.customerId = some fr.customerKey ∧
    assocLookup sm r.country = some fr.storeKey := by
  unfold resolveFactRow at h
  cases h1 : assocLookup pm r.stockCode with
  | none => rw [h1] at h; cases h
  | some pk =>
    cases h2 : assocLookup cm r.customerId with
    | none => rw [h1, h2] at h; cases h
    | some ck =>
      cases h3 : assocLookup sm r.country with
      | none => rw [h1, h2, h3] at h; cases h
      | some sk =>
        rw [h1, h2, h3] at h
        injection h with hfr
        subst hfr
        exact ⟨rfl, rfl, rfl⟩

/-- C9 amended: every fact row the script appends is resolved through
the lookup maps built once per load — its product and store keys come
from successful lookups and its customer key from a current
`dim_customer` row — and a source row whose keys do not all resolve is
silently skipped: no fact row is built from it and nothing is written to
the quarantine table (no reason is recorded anywhere). -/
theorem c9_fk_resolution (store : Option Watermark) (pm : List (String × ℕ))
    (dim : List CustRow) (sm : List (String × ℕ)) (rows : List SaleRow) :
    (∀ fr ∈ (loadFactSalesScript store pm dim sm rows).appendedFacts,
       ∃ r ∈ rows,
         resolveFactRow pm (buildCustomerMap dim) sm r = some fr ∧
         assocLookup pm r.stockCode = some fr.productKey ∧
         assocLookup sm r.country = some fr.storeKey ∧
         ∃ d ∈ dim, d.isCurrent = true ∧ d.customerId = r.customerId ∧
           d.customerKey = fr.customerKey) ∧
    (loadFactSalesScript store pm dim sm rows).rejectedWrites = [] := by
  obtain ⟨hshape, hrej⟩ := loadFactSalesScript_shape store pm dim sm rows
  refine ⟨?_, hrej⟩
  intro fr hfr
  rcases hshape with hnil | hbuild
  · rw [hnil] at hfr; cases hfr
  · rw [hbuild] at hfr
    unfold buildFactRows at hfr
    obtain ⟨r, hr', hres⟩ := List.mem_filterMap.mp hfr
    obtain ⟨h1, h2, h3⟩ := resolveFactRow_some _ _ _ _ _ hres
    obtain ⟨d, hd, hdc, hdi, hdk⟩ := buildCustomerMap_mem dim r.customerId
      fr.customerKey h2
    exact ⟨r, scriptFilter_subset store rows r hr', hres, h1, h3,
      d, hd, hdc, hdi, hdk⟩

/-- One current `dim_customer` row: key 1 → surrogate 7. -/
def dimC9 : List CustRow :=
  [⟨7, 1, none, none, some ("UK"), none, none, 5, sentinelDate, true, none⟩]

/-- Product lookup map: stock code A → surrogate 3. -/
def pmC9 : List (String × ℕ) := [(("A"), 3)]

/-- Store lookup map: region UK → surrogate 4. -/
def smC9 : List (String × ℕ) := [(("UK"), 4)]

/-- A fully resolvable source sale (stock A, customer 1, region UK). -/
def goodSale : SaleRow := ⟨("A"), 1, ("UK"), 100, 259205, 2, 5⟩

/-- A source sale whose stock code B and customer 2 resolve nowhere. -/
def badSale : SaleRow := ⟨("B"), 2, ("UK"), 101, 259300, 1, 4⟩

/-- C9 counterexample: running the script on one resolvable and one
unresolvable sale appends exactly the resolved fact row and leaves no
trace of the dropped row — the quarantine table receives nothing and no
reason is recorded anywhere — refuting the dropped-with-an-explicit-reason
wording; the row is dropped rather than inserted with a null key. -/
theorem c9_counterexample :
    loadFactSalesScript none pmC9 dimC9 smC9 [goodSale, badSale]
      = ⟨[⟨7, 3, 4, 3, 2, 10, 0⟩], [], none⟩ ∧
    resolveFactRow pmC9 (buildCustomerMap dimC9) smC9 badSale = none := by
  constructor
  · unfold loadFactSalesScript scriptFilter buildFactRows resolveFactRow
      assocLookup buildCustomerMap updateWatermark pmC9 dimC9 smC9 goodSale badSale
    norm_num [List.find?, List.filter, List.filterMap, dateOf]
    decide
  · unfold resolveFactRow assocLookup buildCustomerMap pmC9 dimC9 smC9 badSale
    norm_num [List.find?, List.filter]
    decide

/-- C9 witness: the resolution theorem instantiated at the concrete run,
exhibiting the source row and current dimension row behind the single
appended fact row. -/
theorem c9_fk_resolution_witness :
    ∃ r ∈ [goodSale, badSale],
      resolveFactRow pmC9 (buildCustomerMap dimC9) smC9 r
        = some ⟨7, 3, 4, 3, 2, 10, 0⟩ ∧
      assocLookup pmC9 r.stockCode = some 3 ∧
      assocLookup smC9 r.country = some 4 ∧
      ∃ d ∈ dimC9, d.isCurrent = true ∧ d.customerId = r.customerId ∧
        d.customerKey = 7 := by
  refine (c9_fk_resolution none pmC9 dimC9 smC9 [goodSale, badSale]).1
    ⟨7, 3, 4, 3, 2, 10, 0⟩ ?_
  unfold loadFactSalesScript scriptFilter buildFactRows resolveFactRow
    assocLookup buildCustomerMap pmC9 dimC9 smC9 goodSale badSale
  norm_num [List.find?, List.filter, List.filterMap, dateOf]
